/-
Verification of the mapillary region-crawl client
(`mapillary_client/download.py`, `mapillary_client/api.py`,
`mapillary_client/keeper.py`) against its natural-language specification.

The Python code is shallowly embedded: the registry is a list of ids with
membership semantics, the asynchronous pipeline is modelled as explicit
state passing over an effect trace, and every fallible Python operation
returns `Except PyErr`.  Each call protected by `self._registry_lock` is
atomic, so a concurrent execution of registry updates is a sequential
execution in some permutation order.
-/
import Mathlib

namespace Mapillary

/-- Python exceptions that the embedded code can raise. -/
inductive PyErr
  | retrievalError (what : String)
  | attributeError
  | typeError
  | indexError
  | keyError
  | valueError
  | secretKeeperException
deriving DecidableEq, Repr

/-! ### SequenceRegistry: `Downloader._update_registry` (download.py lines 111-119)

The registry `self._sequence_registry` is a Python `set`; we model it as a
`List String` used only through membership.  `_update_registry` iterates the
candidate ids of the tile's feature collection in order, skips ids already
registered, and otherwise inserts the id and appends it to the output. -/

/-- `Downloader._update_registry`: given the current registry and the ordered
candidate ids of a tile, returns the new ids (in input order) and the
registry after inserting them. -/
def updateRegistry : List String → List String → List String × List String
  | reg, [] => ([], reg)
  | reg, c :: cs =>
    if c ∈ reg then updateRegistry reg cs
    else
      let p := updateRegistry (c :: reg) cs
      (c :: p.1, p.2)

/-- Sequential execution of a series of `_update_registry` calls (each call is
performed while holding `self._registry_lock`, download.py lines 93-94, so a
concurrent execution is a sequential one in some order).  Returns the list of
per-call outputs and the final registry. -/
def runCalls : List String → List (List String) → List (List String) × List String
  | reg, [] => ([], reg)
  | reg, c :: cs =>
    let p := updateRegistry reg c
    let q := runCalls p.2 cs
    (p.1 :: q.1, q.2)

theorem updateRegistry_sublist (reg cs : List String) :
    List.Sublist (updateRegistry reg cs).1 cs := by
  induction cs generalizing reg with
  | nil => simp [updateRegistry]
  | cons c cs ih =>
    by_cases h : c ∈ reg
    · simp only [updateRegistry, if_pos h]
      exact List.Sublist.cons c (ih reg)
    · simp only [updateRegistry, if_neg h]
      exact List.Sublist.cons₂ c (ih (c :: reg))

theorem mem_updateRegistry_fst (reg cs : List String) (x : String) :
    x ∈ (updateRegistry reg cs).1 ↔ x ∈ cs ∧ x ∉ reg := by
  induction cs generalizing reg with
  | nil => simp [updateRegistry]
  | cons c cs ih =>
    by_cases h : c ∈ reg
    · simp only [updateRegistry, if_pos h, ih, List.mem_cons]
      constructor
      · rintro ⟨hx, hnr⟩; exact ⟨Or.inr hx, hnr⟩
      · rintro ⟨hx | hx, hnr⟩
        · subst hx; exact absurd h hnr
        · exact ⟨hx, hnr⟩
    · simp only [updateRegistry, if_neg h, List.mem_cons, ih]
      by_cases hxc : x = c
      · subst hxc; tauto
      · tauto

theorem mem_updateRegistry_snd (reg cs : List String) (x : String) :
    x ∈ (updateRegistry reg cs).2 ↔ x ∈ cs ∨ x ∈ reg := by
  induction cs generalizing reg with
  | nil => simp [updateRegistry]
  | cons c cs ih =>
    by_cases h : c ∈ reg
    · simp only [updateRegistry, if_pos h, ih, List.mem_cons]
      by_cases hxc : x = c
      · subst hxc; tauto
      · tauto
    · simp only [updateRegistry, if_neg h, ih, List.mem_cons]
      tauto

theorem updateRegistry_nodup (reg cs : List String) :
    (updateRegistry reg cs).1.Nodup := by
  induction cs generalizing reg with
  | nil => simp [updateRegistry]
  | cons c cs ih =>
    by_cases h : c ∈ reg
    · simp only [updateRegistry, if_pos h]
      exact ih reg
    · simp only [updateRegistry, if_neg h]
      refine List.nodup_cons.2 ⟨?_, ih (c :: reg)⟩
      intro hc
      rw [mem_updateRegistry_fst] at hc
      exact hc.2 (List.mem_cons_self c reg)

theorem mem_runCalls_flatten (reg : List String) (calls : List (List String))
    (x : String) :
    x ∈ (runCalls reg calls).1.flatten ↔ x ∈ calls.flatten ∧ x ∉ reg := by
  induction calls generalizing reg with
  | nil => simp [runCalls]
  | cons c cs ih =>
    simp only [runCalls, List.flatten_cons, List.mem_append, ih,
      mem_updateRegistry_fst, mem_updateRegistry_snd]
    constructor
    · rintro (⟨hx, hnr⟩ | ⟨hx, hn⟩)
      · exact ⟨Or.inl hx, hnr⟩
      · push_neg at hn
        exact ⟨Or.inr hx, hn.2⟩
    · rintro ⟨hx | hx, hnr⟩
      · exact Or.inl ⟨hx, hnr⟩
      · by_cases hc : x ∈ c
        · exact Or.inl ⟨hc, hnr⟩
        · exact Or.inr ⟨hx, by tauto⟩

theorem runCalls_pairwise (reg : List String) (calls : List (List String)) :
    List.Pairwise (fun a b => ∀ y, y ∈ a → y ∉ b) (runCalls reg calls).1 := by
  induction calls generalizing reg with
  | nil => simp [runCalls]
  | cons c cs ih =>
    simp only [runCalls]
    refine List.pairwise_cons.2 ⟨?_, ih _⟩
    intro b hb y hy hyb
    have hyreg : y ∈ (updateRegistry reg c).2 := by
      rw [mem_updateRegistry_snd]
      exact Or.inl ((mem_updateRegistry_fst reg c y).1 hy).1
    have : y ∈ (runCalls (updateRegistry reg c).2 cs).1.flatten :=
      List.mem_flatten.2 ⟨b, hb, hyb⟩
    rw [mem_runCalls_flatten] at this
    exact this.2 hyreg

/-! ### Chunking: `mit.chunked(new_sequence_ids, self._chunks)` (download.py line 96)

`more_itertools.chunked(it, n)` yields successive lists of `n` elements, the
last one possibly shorter.  (For `n = 0` the underlying `take(0, it)` is
immediately the empty sentinel, so no chunks are produced.)  We embed it with
a fuel argument equal to the list length so that it computes by `rfl`. -/

/-- Fuel-driven worker for `chunked`; `fuel ≥ l.length` suffices when `0 < k`. -/
def chunkedAux (k : Nat) : Nat → List α → List (List α)
  | _, [] => []
  | 0, _ :: _ => []
  | fuel + 1, x :: xs => (x :: xs).take k :: chunkedAux k fuel ((x :: xs).drop k)

/-- `more_itertools.chunked`: partition `l` into successive chunks of size `k`
(the final chunk may be shorter); no chunks when `k = 0`. -/
def chunked (k : Nat) (l : List α) : List (List α) :=
  if k = 0 then [] else chunkedAux k l.length l

theorem chunkedAux_flatten (k : Nat) (hk : 0 < k) :
    ∀ (fuel : Nat) (l : List α), l.length ≤ fuel →
      (chunkedAux k fuel l).flatten = l := by
  intro fuel
  induction fuel with
  | zero =>
    intro l hl
    cases l with
    | nil => simp [chunkedAux]
    | cons x xs => simp at hl
  | succ fuel ih =>
    intro l hl
    cases l with
    | nil => simp [chunkedAux]
    | cons x xs =>
      simp only [chunkedAux, List.flatten_cons]
      rw [ih ((x :: xs).drop k) ?_, List.take_append_drop]
      simp only [List.length_drop, List.length_cons] at hl ⊢
      omega

theorem chunkedAux_length (k : Nat) (hk : 0 < k) :
    ∀ (fuel : Nat) (l : List α), l.length ≤ fuel →
      (chunkedAux k fuel l).length = (l.length + k - 1) / k := by
  have hzero : ((0 : Nat) + k - 1) / k = 0 := Nat.div_eq_of_lt (by omega)
  intro fuel
  induction fuel with
  | zero =>
    intro l hl
    cases l with
    | nil => simpa [chunkedAux] using hzero.symm
    | cons x xs => simp at hl
  | succ fuel ih =>
    intro l hl
    cases l with
    | nil => simpa [chunkedAux] using hzero.symm
    | cons x xs =>
      simp only [chunkedAux, List.length_cons]
      rw [ih ((x :: xs).drop k) ?_]
      · have hlen : ((x :: xs).drop k).length = xs.length + 1 - k := by
          simp [List.length_drop]
        rw [hlen]
        rcases Nat.lt_or_ge (xs.length + 1) (k + 1) with hsmall | hbig
        · have h1 : xs.length + 1 - k = 0 := by omega
          have h2 : (xs.length + 1 + k - 1) / k = 1 := by
            apply Nat.div_eq_of_lt_le <;> omega
          rw [h1, h2, hzero]
        · have h3 : xs.length + 1 + k - 1 = (xs.length + 1 - k + k - 1) + k := by
            omega
          rw [h3, Nat.add_div_right _ hk]
      · simp only [List.length_drop, List.length_cons] at *
        omega

theorem chunkedAux_size (k : Nat) :
    ∀ (fuel : Nat) (l : List α) (c : List α),
      c ∈ chunkedAux k fuel l → c.length ≤ k := by
  intro fuel
  induction fuel with
  | zero =>
    intro l c hc
    cases l <;> simp [chunkedAux] at hc
  | succ fuel ih =>
    intro l c hc
    cases l with
    | nil => simp [chunkedAux] at hc
    | cons x xs =>
      simp only [chunkedAux, List.mem_cons] at hc
      rcases hc with hc | hc
      · subst hc
        simp [List.length_take_le]
      · exact ih _ _ hc

/-! ### Image records and persistence: `Downloader._save_sequence` (download.py lines 70-84)

`EntitiesAPI.aget_image` (api.py lines 115-145) returns either the plain
metadata dict (when `thumbs is None`), a `NamedPair(metadata, bytes)` (when
`thumbs` is a single string), or a `NamedPair(metadata, dict_of_bytes)` (when
`thumbs` is a list).  `_save_sequence` accesses `image_data.metadata` and
`image_data.data`: on a plain dict the attribute access raises
`AttributeError`; writing a dict of bytes to a binary file raises
`TypeError`. -/

/-- The shapes of value `aget_image` can hand to `_save_sequence`. -/
inductive PyImageRecord
  | plain (meta : List (String × String))
  | pairBytes (meta : List (String × String)) (payload : List Nat)
  | pairMap (meta : List (String × String)) (payload : List (String × List Nat))
deriving DecidableEq, Repr

/-- Contents written to disk by `_save_sequence`: the raw payload bytes or the
JSON serialization of the metadata dict. -/
inductive FileContent
  | bytes (bs : List Nat)
  | jsonMeta (m : List (String × String))
deriving DecidableEq, Repr

/-- Python dict lookup `m[k]` on our assoc-list model of a metadata dict. -/
def lookupKey (m : List (String × String)) (k : String) : Option String :=
  (m.find? (fun p => p.1 == k)).map (fun p => p.2)

/-- One iteration of the record loop of `_save_sequence`: compute
`image_path = seq_dir / metadata["id"]`, write the payload to `image_path`
and the metadata JSON to `image_path + ".json"`.  Paths are lists of
components. -/
def saveRecord (seqDir : List String) :
    PyImageRecord → Except PyErr (List (List String × FileContent))
  | .plain _ => .error .attributeError
  | .pairBytes meta payload =>
    match lookupKey meta "id" with
    | none => .error .keyError
    | some i =>
      .ok [(seqDir ++ [i], .bytes payload),
           (seqDir ++ [i ++ ".json"], .jsonMeta meta)]
  | .pairMap meta _ =>
    match lookupKey meta "id" with
    | none => .error .keyError
    | some _ => .error .typeError

/-- The record loop of `_save_sequence`: records are written sequentially;
the first failing record aborts the loop (the exception propagates), keeping
the writes made so far. -/
def saveRecords (seqDir : List String) :
    List PyImageRecord → List (List String × FileContent) × Option PyErr
  | [] => ([], none)
  | r :: rs =>
    match saveRecord seqDir r with
    | .error e => ([], some e)
    | .ok ws =>
      let p := saveRecords seqDir rs
      (ws ++ p.1, p.2)

/-! ### Sequence fetching: `EntitiesAPI.aget_sequence_data` (api.py lines 147-176)

The per-image coroutines are awaited via `asyncio.as_completed`; results are
appended in completion order and an exception raised by any awaited task
propagates out of the loop, aborting the call.  `imageIds` below is the
completion order of the per-image tasks. -/

/-- `EntitiesAPI.aget_sequence_data`: await each per-image fetch in completion
order, appending results; the first failure propagates and aborts the call. -/
def agetSequenceData (fetchImage : String → Except PyErr PyImageRecord) :
    List String → Except PyErr (List PyImageRecord)
  | [] => .ok []
  | i :: is =>
    match fetchImage i with
    | .error e => .error e
    | .ok r =>
      match agetSequenceData fetchImage is with
      | .error e => .error e
      | .ok rs => .ok (r :: rs)

/-- Boolean success test for `Except`. -/
def isOkE : Except PyErr α → Bool
  | .ok _ => true
  | .error _ => false

/-! ### Per-tile orchestration: `Downloader._get_entities` (download.py lines 86-109)
and the tile loop of `download_region` (lines 47-68).

Effects are recorded as traces: which tiles' coverage was fetched, which
directories `os.makedirs` was invoked on, and which files were written. -/

/-- A mercantile tile coordinate. -/
structure Tile where
  x : Int
  y : Int
  z : Int
deriving DecidableEq, Repr

/-- Trace of the downloader's observable side effects. -/
structure Effects where
  coverageTiles : List Tile
  mkdirs : List (List String)
  writes : List (List String × FileContent)
deriving DecidableEq, Repr

/-- Concatenation of effect traces. -/
def Effects.app (a b : Effects) : Effects :=
  ⟨a.coverageTiles ++ b.coverageTiles, a.mkdirs ++ b.mkdirs, a.writes ++ b.writes⟩

/-- The sequence loop inside `_get_entities`: for each newly registered
sequence id, await `aget_sequence_data` and pass the result to
`_save_sequence` (which makes the sequence directory, then writes the
records).  A raised exception aborts the loop. -/
def processSeqs (root : List String)
    (fetchSeq : String → Except PyErr (List PyImageRecord)) :
    List String → (List (List String) × List (List String × FileContent)) × Option PyErr
  | [] => (([], []), none)
  | s :: ss =>
    match fetchSeq s with
    | .error e => (([], []), some e)
    | .ok recs =>
      let seqDir := root ++ [s]
      let w := saveRecords seqDir recs
      match w.2 with
      | some e => (([seqDir], w.1), some e)
      | none =>
        let p := processSeqs root fetchSeq ss
        ((seqDir :: p.1.1, w.1 ++ p.1.2), p.2)

/-- `Downloader._get_entities`: fetch the tile's coverage, register the new
sequence ids under the registry lock, chunk them, and fetch+persist each
chunk's sequences.  Returns the new registry, the effect trace, and the
exception (if any) that aborted the call. -/
def getEntities (coverage : Tile → Except PyErr (List String))
    (fetchSeq : String → Except PyErr (List PyImageRecord))
    (root : List String) (chunks : Nat) (reg : List String) (tile : Tile) :
    (List String × Effects) × Option PyErr :=
  match coverage tile with
  | .error e => ((reg, ⟨[tile], [], []⟩), some e)
  | .ok cands =>
    let u := updateRegistry reg cands
    let p := processSeqs root fetchSeq (chunked chunks u.1).flatten
    ((u.2, ⟨[tile], p.1.1, p.1.2⟩), p.2)

/-- The tile loop of `download_region`: tiles are processed sequentially and
an exception raised while processing a tile propagates, so later tiles are
never visited. -/
def downloadTiles (coverage : Tile → Except PyErr (List String))
    (fetchSeq : String → Except PyErr (List PyImageRecord))
    (root : List String) (chunks : Nat) :
    List String → List Tile → (List String × Effects) × Option PyErr
  | reg, [] => ((reg, ⟨[], [], []⟩), none)
  | reg, t :: ts =>
    let g := getEntities coverage fetchSeq root chunks reg t
    match g.2 with
    | some e => ((g.1.1, g.1.2), some e)
    | none =>
      let d := downloadTiles coverage fetchSeq root chunks g.1.1 ts
      ((d.1.1, g.1.2.app d.1.2), d.2)

/-- Modelled from the spec: `init_if_none` lives in `mapillary_client/utils.py`,
which is not in the repository snapshot.  Per its call sites and the spec's
layered-default language ("explicit call-site override → instance-level
configured token → ..."), it returns its first argument unless that is
`None`, in which case it returns the second. -/
def initIfNone (v : Option α) (dflt : α) : α :=
  match v with
  | some x => x
  | none => dflt

/-- `Downloader.download_region`: `os.makedirs(self.directory)` happens first
and unconditionally; the local `directory = init_if_none(directory,
self.directory)` is computed but never used afterwards (all paths come from
`self.directory`); then each enumerated tile is processed in order. -/
def downloadRegion (coverage : Tile → Except PyErr (List String))
    (fetchSeq : String → Except PyErr (List PyImageRecord))
    (selfDirectory : List String) (chunks : Nat)
    (dirArg : Option (List String)) (tiles : List Tile) :
    (List String × Effects) × Option PyErr :=
  let directory := initIfNone dirArg selfDirectory
  let d := downloadTiles coverage fetchSeq selfDirectory chunks [] tiles
  ((d.1.1, ⟨d.1.2.coverageTiles, selfDirectory :: d.1.2.mkdirs, d.1.2.writes⟩), d.2)

/-! ### Secret lookup and headers: `SecretKeeper.get` (keeper.py lines 16-25),
`EntitiesAPI._make_header` (api.py lines 192-199) and the token resolution in
`CoverageAPI.aget_tile` (api.py lines 241-243).

The module-level `secret_keeper` has an empty `additional_secrets` stack, so
a lookup scans the (reversed) additional dicts, then the process environment;
a missing key raises `SecretKeeperException`. -/

/-- `SecretKeeper.get`: each element of `additional` is one pushed secrets
dict (as a lookup function); `environ` is `os.environ`. -/
def secretKeeperGet (additional : List (String → Option String))
    (environ : String → Option String) (key : String) : Except PyErr String :=
  match additional.reverse.findSome? (fun d => d key) with
  | some v => .ok v
  | none =>
    match environ key with
    | some v => .ok v
    | none => .error .secretKeeperException

/-- The environment key consulted by both APIs (api.py line 49). -/
def MAPILLARY_CLIENT_SECRET : String := "MAPILLARY_CLIENT_SECRET"

/-- `EntitiesAPI._add_token_to_header`. -/
def addTokenToHeader (accessToken : String) : String × String :=
  ("Authorization", "OAuth " ++ accessToken)

/-- `EntitiesAPI.__init__`: `self.headers` is set iff a constructor
`access_token` was given. -/
def entitiesInitHeaders (accessToken : Option String) : Option (String × String) :=
  accessToken.map addTokenToHeader

/-- `EntitiesAPI._make_header`: explicit call-site token first, else the
instance `self.headers`, else the module `secret_keeper` lookup of
`MAPILLARY_CLIENT_SECRET` (which raises when the key is absent). -/
def makeHeader (environ : String → Option String)
    (selfHeaders : Option (String × String)) (accessToken : Option String) :
    Except PyErr (String × String) :=
  match accessToken with
  | none =>
    match selfHeaders with
    | none => (secretKeeperGet [] environ MAPILLARY_CLIENT_SECRET).map addTokenToHeader
    | some h => .ok h
  | some t => .ok (addTokenToHeader t)

/-- The token resolution of `CoverageAPI.aget_tile`:
`init_if_none(access_token, secret_keeper[MAPILLARY_CLIENT_SECRET])`.
Python evaluates the second argument eagerly, so the keeper lookup runs (and
can raise) even when an explicit `access_token` was passed. -/
def coverageAgetTileToken (environ : String → Option String)
    (accessToken : Option String) : Except PyErr String :=
  match secretKeeperGet [] environ MAPILLARY_CLIENT_SECRET with
  | .error e => .error e
  | .ok dflt => .ok (initIfNone accessToken dflt)

/-! ### Fields validation: `EntitiesAPI._collect_fields` (api.py lines 205-216)

`fields` is an arbitrary Python value; the embedding distinguishes strings,
integers and lists.  `",".join(fields)` raises `TypeError` on the first
non-string element. -/

/-- A Python value that can be passed as the `fields` argument. -/
inductive PyVal
  | pstr (s : String)
  | pint (n : Int)
  | plist (xs : List PyVal)
deriving Repr

/-- `isinstance(v, str)`. -/
def pyIsStr : PyVal → Bool
  | .pstr _ => true
  | _ => false

/-- Collect the elements of a Python list as strings; `none` as soon as a
non-string element is encountered (as `str.join` does). -/
def collectStrs : List PyVal → Option (List String)
  | [] => some []
  | .pstr s :: xs => (collectStrs xs).map (fun ss => s :: ss)
  | .pint _ :: _ => none
  | .plist _ :: _ => none

/-- `",".join(xs)`: `TypeError` if any element is not a string. -/
def joinComma (xs : List PyVal) : Except PyErr String :=
  match collectStrs xs with
  | some ss => .ok (String.intercalate "," ss)
  | none => .error .typeError

/-- `vars(IMAGE_FIELDS).values()` in declaration order (api.py lines 18-44). -/
def imageFieldsList : List String :=
  ["id", "altitude", "atomic_scale", "camera_parameters", "camera_type",
   "captured_at", "compass_angle", "computed_altitude",
   "computed_compass_angle", "computed_geometry", "computed_rotation",
   "exif_orientation", "geometry", "height", "thumb_256_url",
   "thumb_1024_url", "thumb_2048_url", "thumb_original_url", "merge_cc",
   "mesh", "sequence", "sfm_cluster", "width", "detections"]

/-- `EntitiesAPI._collect_fields`: `None` passes the URL through; the string
`"image"` expands to all known image fields; any other non-list raises
`ValueError`; a list is validated by inspecting only `fields[0]` (empty list:
`IndexError`; non-string head: `ValueError`) and then comma-joined. -/
def collectFields (url : String) (fields : Option PyVal) : Except PyErr String :=
  match fields with
  | none => .ok url
  | some (.pstr s) =>
    if s = "image" then
      .ok (url ++ "?fields=" ++ String.intercalate "," imageFieldsList)
    else .error .valueError
  | some (.plist []) => .error .indexError
  | some (.plist (x :: xs)) =>
    if pyIsStr x then
      match joinComma (x :: xs) with
      | .ok j => .ok (url ++ "?fields=" ++ j)
      | .error e => .error e
    else .error .valueError
  | some (.pint _) => .error .valueError

/-! ## Claim theorems -/

/-- C1: every `_update_registry` call preserves input order (the output is a
sublist of the candidates), returns each id at most once, returns exactly the
candidate ids not previously registered, inserts exactly the returned ids
into the registry, and across any sequence of calls each distinct id appears
in exactly one call's output (the outputs are pairwise disjoint and jointly
cover every unregistered candidate). -/
theorem C1_register_if_new_correct (reg0 cand : List String)
    (calls : List (List String)) (x : String) :
    List.Sublist (updateRegistry reg0 cand).1 cand
  ∧ (updateRegistry reg0 cand).1.Nodup
  ∧ (x ∈ (updateRegistry reg0 cand).1 ↔ x ∈ cand ∧ x ∉ reg0)
  ∧ (x ∈ (updateRegistry reg0 cand).2 ↔ x ∈ (updateRegistry reg0 cand).1 ∨ x ∈ reg0)
  ∧ List.Pairwise (fun a b => ∀ y, y ∈ a → y ∉ b) (runCalls reg0 calls).1
  ∧ (x ∈ (runCalls reg0 calls).1.flatten ↔ x ∈ calls.flatten ∧ x ∉ reg0) := by
  refine ⟨updateRegistry_sublist reg0 cand, updateRegistry_nodup reg0 cand,
    mem_updateRegistry_fst reg0 cand x, ?_, runCalls_pairwise reg0 calls,
    mem_runCalls_flatten reg0 calls x⟩
  rw [mem_updateRegistry_snd, mem_updateRegistry_fst]
  tauto

/-- C2: each `register_if_new` call runs inside the registry lock
(download.py lines 93-94), so a concurrent execution of N calls is a
sequential execution of the atomic calls in some permutation order; in every
such order the outputs are pairwise disjoint (no id is returned by two calls)
and their union is exactly the set of distinct candidates. -/
theorem C2_concurrent_register_disjoint (calls perm : List (List String))
    (h : List.Perm perm calls) (x : String) :
    List.Pairwise (fun a b => ∀ y, y ∈ a → y ∉ b) (runCalls [] perm).1
  ∧ (x ∈ (runCalls [] perm).1.flatten ↔ x ∈ calls.flatten) := by
  refine ⟨runCalls_pairwise [] perm, ?_⟩
  rw [mem_runCalls_flatten]
  simp only [List.not_mem_nil, not_false_iff, and_true]
  simp only [List.mem_flatten]
  constructor
  · rintro ⟨l, hl, hy⟩
    exact ⟨l, h.subset hl, hy⟩
  · rintro ⟨l, hl, hy⟩
    exact ⟨l, h.symm.subset hl, hy⟩

/-- Witness for C2 at the spec's overlapping example: the calls
`[s1, s2]` and `[s2, s3]` executed in swapped order. -/
theorem C2_concurrent_register_disjoint_witness :
    List.Pairwise (fun a b => ∀ y, y ∈ a → y ∉ b)
      (runCalls [] [["s2", "s3"], ["s1", "s2"]]).1
  ∧ ("s2" ∈ (runCalls [] [["s2", "s3"], ["s1", "s2"]]).1.flatten ↔
      "s2" ∈ [["s1", "s2"], ["s2", "s3"]].flatten) :=
  C2_concurrent_register_disjoint [["s1", "s2"], ["s2", "s3"]]
    [["s2", "s3"], ["s1", "s2"]] (List.Perm.swap _ _ _) "s2"

/-- C6: for chunk size K > 0, `mit.chunked` partitions M ids into
`ceil(M/K)` chunks, each of size at most K, whose concatenation is the
original list (hence contains each id exactly once, in order). -/
theorem C6_chunk_partition (k : Nat) (l : List String) (hk : 0 < k) :
    (chunked k l).length = (l.length + k - 1) / k
  ∧ (∀ c ∈ chunked k l, c.length ≤ k)
  ∧ (chunked k l).flatten = l := by
  have hk0 : k ≠ 0 := Nat.pos_iff_ne_zero.mp hk
  unfold chunked
  rw [if_neg hk0]
  exact ⟨chunkedAux_length k hk l.length l le_rfl,
    fun c hc => chunkedAux_size k l.length l c hc,
    chunkedAux_flatten k hk l.length l le_rfl⟩

/-- Witness for C6: M = 5 ids, K = 2 gives 3 chunks. -/
theorem C6_chunk_partition_witness :
    (chunked 2 ["a", "b", "c", "d", "e"]).length =
      ((["a", "b", "c", "d", "e"] : List String).length + 2 - 1) / 2
  ∧ (∀ c ∈ chunked 2 ["a", "b", "c", "d", "e"], c.length ≤ 2)
  ∧ (chunked 2 ["a", "b", "c", "d", "e"]).flatten = ["a", "b", "c", "d", "e"] :=
  C6_chunk_partition 2 ["a", "b", "c", "d", "e"] (by decide)

/-- Helper: if any image in the await order fails, `aget_sequence_data`
returns an error (there is no try/except in api.py lines 147-176). -/
theorem agetSequenceData_error_of_mem
    (fetchImage : String → Except PyErr PyImageRecord) (ids : List String)
    (i : String) (hi : i ∈ ids) (hbad : isOkE (fetchImage i) = false) :
    ∃ e, agetSequenceData fetchImage ids = .error e := by
  induction ids with
  | nil => cases hi
  | cons j js ih =>
    cases hj : fetchImage j with
    | error e => exact ⟨e, by simp [agetSequenceData, hj]⟩
    | ok r =>
      rcases List.mem_cons.1 hi with hij | hmem
      · subst hij
        rw [hj] at hbad
        simp [isOkE] at hbad
      · obtain ⟨e, he⟩ := ih hmem
        exact ⟨e, by simp [agetSequenceData, hj, he]⟩

/-- A per-image fetcher where image "b" fails and every other image
succeeds with a payload-carrying record. -/
def c3FetchImage : String → Except PyErr PyImageRecord := fun i =>
  if i = "b" then .error (.retrievalError "image b")
  else .ok (.pairBytes [("id", i)] [0])

/-- C3 counterexample: in a sequence of R = 2 images where image "b"'s fetch
fails, `aget_sequence_data` returns the error instead of the remaining
R − 1 = 1 record, and the sequence loop of `_get_entities` therefore
persists no files at all for the sequence. -/
theorem C3_counterexample :
    agetSequenceData c3FetchImage ["a", "b"] = .error (.retrievalError "image b")
  ∧ processSeqs ["root"] (fun _ => agetSequenceData c3FetchImage ["a", "b"]) ["s1"]
      = (([], []), some (.retrievalError "image b")) := by
  constructor <;> rfl

/-- C3 amended: a single image's fetch failure aborts the whole sequence
fetch: `aget_sequence_data` propagates the exception, no partial list of the
surviving records is returned, and `_get_entities` does not persist the
sequence (no directory is made and no file is written for it). -/
theorem C3_fetch_failure_aborts
    (fetchImage : String → Except PyErr PyImageRecord) (ids : List String)
    (root : List String) (s : String)
    (h : ∃ i ∈ ids, isOkE (fetchImage i) = false) :
    (∃ e, agetSequenceData fetchImage ids = .error e)
  ∧ ∀ e, agetSequenceData fetchImage ids = .error e →
      processSeqs root (fun _ => agetSequenceData fetchImage ids) [s]
        = (([], []), some e) := by
  obtain ⟨i, hi, hbad⟩ := h
  refine ⟨agetSequenceData_error_of_mem fetchImage ids i hi hbad, ?_⟩
  intro e he
  simp [processSeqs, he]

/-- Witness for C3 amended at the concrete failing fetcher. -/
theorem C3_fetch_failure_aborts_witness :
    (∃ e, agetSequenceData c3FetchImage ["a", "b"] = .error e)
  ∧ ∀ e, agetSequenceData c3FetchImage ["a", "b"] = .error e →
      processSeqs ["root"] (fun _ => agetSequenceData c3FetchImage ["a", "b"]) ["s1"]
        = (([], []), some e) :=
  C3_fetch_failure_aborts c3FetchImage ["a", "b"] ["root"] "s1"
    ⟨"b", by decide, by decide⟩

/-- A coverage fetcher that fails on the tile with x = 0 and succeeds (with
no features) on every other tile. -/
def c4Coverage : Tile → Except PyErr (List String) := fun t =>
  if t.x = 0 then .error (.retrievalError "coverage") else .ok []

/-- C4 counterexample: with two tiles where the first tile's coverage fetch
raises, `download_region` propagates the error and the second tile is never
processed (its coverage is never fetched), contrary to the claim that the
orchestrator proceeds to the next tile. -/
theorem C4_counterexample :
    downloadRegion c4Coverage (fun _ => .ok []) ["root"] 5 none
        [⟨0, 0, 1⟩, ⟨1, 0, 1⟩]
      = (([], ⟨[⟨0, 0, 1⟩], [["root"]], []⟩), some (.retrievalError "coverage"))
  ∧ (⟨1, 0, 1⟩ : Tile) ∉
      (downloadRegion c4Coverage (fun _ => .ok []) ["root"] 5 none
        [⟨0, 0, 1⟩, ⟨1, 0, 1⟩]).1.2.coverageTiles := by
  constructor <;> decide

/-- C4 amended: an exception while processing a tile (in particular a
`RetrievalError` from its coverage fetch) aborts the entire region crawl:
the tile loop returns immediately and the remaining tiles are not visited. -/
theorem C4_tile_error_aborts_region
    (coverage : Tile → Except PyErr (List String))
    (fetchSeq : String → Except PyErr (List PyImageRecord))
    (root : List String) (chunks : Nat) (reg : List String)
    (t : Tile) (ts : List Tile) (e : PyErr)
    (h : (getEntities coverage fetchSeq root chunks reg t).2 = some e) :
    downloadTiles coverage fetchSeq root chunks reg (t :: ts)
      = ((getEntities coverage fetchSeq root chunks reg t).1, some e) := by
  simp only [downloadTiles, h]

/-- Witness for C4 amended at the concrete failing coverage fetcher. -/
theorem C4_tile_error_aborts_region_witness :
    downloadTiles c4Coverage (fun _ => .ok []) ["root"] 5 []
        [⟨0, 0, 1⟩, ⟨1, 0, 1⟩]
      = ((getEntities c4Coverage (fun _ => .ok []) ["root"] 5 [] ⟨0, 0, 1⟩).1,
          some (.retrievalError "coverage")) :=
  C4_tile_error_aborts_region c4Coverage (fun _ => .ok []) ["root"] 5 []
    ⟨0, 0, 1⟩ [⟨1, 0, 1⟩] (.retrievalError "coverage") (by decide)

/-- A record of the only shape `_save_sequence` can actually persist: a
`NamedPair` whose payload is raw bytes (the `thumbs`-is-a-string case of
`aget_image`) and whose metadata dict has an `"id"` key. -/
def isSavableRecord : PyImageRecord → Bool
  | .pairBytes meta _ => (lookupKey meta "id").isSome
  | _ => false

/-- The write is a binary payload file. -/
def isPayloadWrite : List String × FileContent → Bool
  | (_, .bytes _) => true
  | (_, .jsonMeta _) => false

/-- The write is a metadata JSON document. -/
def isMetaWrite : List String × FileContent → Bool
  | (_, .bytes _) => false
  | (_, .jsonMeta _) => true

/-- C5 counterexample: a record whose optional payload is absent (the
`thumbs is None` shape, a plain metadata dict) makes `_save_sequence` raise
`AttributeError` at `image_data.metadata`, so for R = 1 such record zero
payload files and zero metadata files are written, not one pair. -/
theorem C5_counterexample :
    saveRecords ["root", "s1"] [PyImageRecord.plain [("id", "img1")]]
      = ([], some PyErr.attributeError) := by
  decide

/-- C5 amended: when every record is a bytes-payload `NamedPair` whose
metadata contains an `"id"` (the shape produced when `thumbs` is a single
string), `_save_sequence` completes without error and performs exactly R
payload writes and exactly R metadata writes; every metadata document is
written at `root/<sequence_id>/<image_id>.json` and contains the matching
image id, and every payload at `root/<sequence_id>/<image_id>`.  For the
other record shapes the fetcher can produce (plain metadata dict, or a
thumbnail map) the write loop raises instead. -/
theorem C5_save_sequence_pairs (seqDir : List String)
    (records : List PyImageRecord)
    (h : ∀ r ∈ records, isSavableRecord r = true) :
    (saveRecords seqDir records).2 = none
  ∧ ((saveRecords seqDir records).1.filter isPayloadWrite).length = records.length
  ∧ ((saveRecords seqDir records).1.filter isMetaWrite).length = records.length
  ∧ (∀ p m, (p, FileContent.jsonMeta m) ∈ (saveRecords seqDir records).1 →
      ∃ i, lookupKey m "id" = some i ∧ p = seqDir ++ [i ++ ".json"])
  ∧ (∀ p bs, (p, FileContent.bytes bs) ∈ (saveRecords seqDir records).1 →
      ∃ i, p = seqDir ++ [i]) := by
  induction records with
  | nil => simp [saveRecords]
  | cons r rs ih =>
    have hr : isSavableRecord r = true := h r (List.mem_cons_self r rs)
    have hrs : ∀ x ∈ rs, isSavableRecord x = true :=
      fun x hx => h x (List.mem_cons_of_mem r hx)
    obtain ⟨meta, payload, rfl⟩ : ∃ m p, r = PyImageRecord.pairBytes m p := by
      cases r with
      | plain m => simp [isSavableRecord] at hr
      | pairBytes m p => exact ⟨m, p, rfl⟩
      | pairMap m p => simp [isSavableRecord] at hr
    obtain ⟨i, hid⟩ : ∃ i, lookupKey meta "id" = some i := by
      simp only [isSavableRecord, Option.isSome_iff_exists] at hr
      exact hr
    obtain ⟨ihnone, ihpay, ihmeta, ihjson, ihbytes⟩ := ih hrs
    simp only [saveRecords, saveRecord, hid]
    refine ⟨ihnone, ?_, ?_, ?_, ?_⟩
    · simp [List.filter_append, isPayloadWrite, ihpay]
    · simp [List.filter_append, isMetaWrite, ihmeta]
    · intro p m hm
      rcases List.mem_append.1 hm with hm | hm
      · rcases List.mem_cons.1 hm with hm | hm
        · cases hm
        · rcases List.mem_cons.1 hm with hm | hm
          · obtain ⟨hp, hmeq⟩ := Prod.mk.injEq .. ▸ hm
            cases hm
            exact ⟨i, hid, rfl⟩
          · cases hm
      · exact ihjson p m hm
    · intro p bs hb
      rcases List.mem_append.1 hb with hb | hb
      · rcases List.mem_cons.1 hb with hb | hb
        · cases hb
          exact ⟨i, rfl⟩
        · rcases List.mem_cons.1 hb with hb | hb
          · cases hb
          · cases hb
      · exact ihbytes p bs hb

/-- Witness for C5 amended: R = 2 well-shaped records. -/
theorem C5_save_sequence_pairs_witness :
    (saveRecords ["root", "s1"]
        [PyImageRecord.pairBytes [("id", "i1")] [7],
         PyImageRecord.pairBytes [("id", "i2")] [8]]).2 = none
  ∧ ((saveRecords ["root", "s1"]
        [PyImageRecord.pairBytes [("id", "i1")] [7],
         PyImageRecord.pairBytes [("id", "i2")] [8]]).1.filter
          isPayloadWrite).length =
      [PyImageRecord.pairBytes [("id", "i1")] [7],
       PyImageRecord.pairBytes [("id", "i2")] [8]].length
  ∧ ((saveRecords ["root", "s1"]
        [PyImageRecord.pairBytes [("id", "i1")] [7],
         PyImageRecord.pairBytes [("id", "i2")] [8]]).1.filter
          isMetaWrite).length =
      [PyImageRecord.pairBytes [("id", "i1")] [7],
       PyImageRecord.pairBytes [("id", "i2")] [8]].length
  ∧ (∀ p m, (p, FileContent.jsonMeta m) ∈
        (saveRecords ["root", "s1"]
          [PyImageRecord.pairBytes [("id", "i1")] [7],
           PyImageRecord.pairBytes [("id", "i2")] [8]]).1 →
      ∃ i, lookupKey m "id" = some i ∧ p = ["root", "s1"] ++ [i ++ ".json"])
  ∧ (∀ p bs, (p, FileContent.bytes bs) ∈
        (saveRecords ["root", "s1"]
          [PyImageRecord.pairBytes [("id", "i1")] [7],
           PyImageRecord.pairBytes [("id", "i2")] [8]]).1 →
      ∃ i, p = ["root", "s1"] ++ [i]) :=
  C5_save_sequence_pairs ["root", "s1"]
    [PyImageRecord.pairBytes [("id", "i1")] [7],
     PyImageRecord.pairBytes [("id", "i2")] [8]] (by decide)

/-- C7 counterexample: `CoverageAPI.aget_tile` evaluates
`secret_keeper[MAPILLARY_CLIENT_SECRET]` eagerly as the default argument of
`init_if_none`, so with the environment variable missing the call raises
`SecretKeeperException` even though an explicit access token was passed —
the explicit call-site override does not come first for coverage calls. -/
theorem C7_counterexample :
    coverageAgetTileToken (fun _ => none) (some "tok")
      = .error PyErr.secretKeeperException := by
  rfl

/-- C7 amended: `EntitiesAPI` calls resolve the token lazily in the layered
order explicit override → instance token → environment variable, raising
`SecretKeeperException` only when all three are absent; `CoverageAPI.aget_tile`
has no instance layer and performs the environment lookup unconditionally, so
a missing `MAPILLARY_CLIENT_SECRET` raises even when an explicit token is
supplied, while with the secret present the explicit token takes
precedence. -/
theorem C7_token_resolution (envSome envNone : String → Option String)
    (s tok : String) (hdr : String × String)
    (hs : envSome MAPILLARY_CLIENT_SECRET = some s)
    (hn : envNone MAPILLARY_CLIENT_SECRET = none) :
    makeHeader envNone (entitiesInitHeaders none) (some tok)
      = .ok (addTokenToHeader tok)
  ∧ makeHeader envNone (some hdr) none = .ok hdr
  ∧ makeHeader envSome none none = .ok (addTokenToHeader s)
  ∧ makeHeader envNone none none = .error PyErr.secretKeeperException
  ∧ coverageAgetTileToken envNone (some tok) = .error PyErr.secretKeeperException
  ∧ coverageAgetTileToken envSome (some tok) = .ok tok
  ∧ coverageAgetTileToken envSome none = .ok s := by
  refine ⟨rfl, rfl, ?_, ?_, ?_, ?_, ?_⟩ <;>
    simp [makeHeader, coverageAgetTileToken, secretKeeperGet, hs, hn,
      initIfNone, addTokenToHeader, Except.map]

/-- Witness for C7 at concrete environments. -/
theorem C7_token_resolution_witness :
    makeHeader (fun _ => none) (entitiesInitHeaders none) (some "tok")
      = .ok (addTokenToHeader "tok")
  ∧ makeHeader (fun _ => none) (some ("Authorization", "OAuth inst")) none
      = .ok ("Authorization", "OAuth inst")
  ∧ makeHeader (fun k => if k = "MAPILLARY_CLIENT_SECRET" then some "sec" else none)
      none none = .ok (addTokenToHeader "sec")
  ∧ makeHeader (fun _ => none) none none = .error PyErr.secretKeeperException
  ∧ coverageAgetTileToken (fun _ => none) (some "tok")
      = .error PyErr.secretKeeperException
  ∧ coverageAgetTileToken
      (fun k => if k = "MAPILLARY_CLIENT_SECRET" then some "sec" else none)
      (some "tok") = .ok "tok"
  ∧ coverageAgetTileToken
      (fun k => if k = "MAPILLARY_CLIENT_SECRET" then some "sec" else none)
      none = .ok "sec" :=
  C7_token_resolution
    (fun k => if k = "MAPILLARY_CLIENT_SECRET" then some "sec" else none)
    (fun _ => none) "sec" "tok" ("Authorization", "OAuth inst") (by rfl) (by rfl)

/-- C8 counterexample: with an empty tile enumeration `download_region`
still invokes `os.makedirs(self.directory)` before the loop, so one
directory-creation call (the root) is issued, not zero; no coverage
retrieval happens. -/
theorem C8_counterexample :
    (downloadRegion (fun _ => .ok []) (fun _ => .ok []) ["root"] 5 none []).1.2.mkdirs
      = [["root"]]
  ∧ (downloadRegion (fun _ => .ok []) (fun _ => .ok []) ["root"] 5 none []).1.2.mkdirs
      ≠ []
  ∧ (downloadRegion (fun _ => .ok []) (fun _ => .ok []) ["root"] 5 none
      []).1.2.coverageTiles = [] := by
  refine ⟨rfl, by decide, rfl⟩

/-- C8 amended: for an empty tile enumeration, `download_region` issues no
retrieval calls, writes no files and creates no sequence directories, but it
does create (exactly) the root directory, unconditionally and before the
tile loop. -/
theorem C8_empty_region (coverage : Tile → Except PyErr (List String))
    (fetchSeq : String → Except PyErr (List PyImageRecord))
    (root : List String) (chunks : Nat) (dirArg : Option (List String)) :
    downloadRegion coverage fetchSeq root chunks dirArg []
      = (([], ⟨[], [root], []⟩), none) :=
  rfl

/-- Helper: the writes of one successful `saveRecord` all live under the
sequence directory. -/
theorem saveRecord_writes_under (seqDir : List String) (r : PyImageRecord)
    (ws : List (List String × FileContent)) (hr : saveRecord seqDir r = .ok ws) :
    ∀ w ∈ ws, ∃ rest, w.1 = seqDir ++ rest := by
  cases r with
  | plain m => simp [saveRecord] at hr
  | pairBytes m p =>
    cases hlk : lookupKey m "id" with
    | none => simp [saveRecord, hlk] at hr
    | some i =>
      simp only [saveRecord, hlk, Except.ok.injEq] at hr
      subst hr
      intro w hw
      rcases List.mem_cons.1 hw with h1 | hw
      · subst h1; exact ⟨[i], rfl⟩
      · rcases List.mem_cons.1 hw with h1 | hw
        · subst h1; exact ⟨[i ++ ".json"], rfl⟩
        · cases hw
  | pairMap m p =>
    cases hlk : lookupKey m "id" with
    | none => simp [saveRecord, hlk] at hr
    | some i => simp [saveRecord, hlk] at hr

/-- Helper: all writes of the `_save_sequence` record loop live under the
sequence directory. -/
theorem saveRecords_writes_under (seqDir : List String)
    (rs : List PyImageRecord) :
    ∀ w ∈ (saveRecords seqDir rs).1, ∃ rest, w.1 = seqDir ++ rest := by
  induction rs with
  | nil => simp [saveRecords]
  | cons r rs ih =>
    intro w hw
    cases hr : saveRecord seqDir r with
    | error e => simp [saveRecords, hr] at hw
    | ok ws =>
      simp only [saveRecords, hr] at hw
      rcases List.mem_append.1 hw with h1 | h1
      · exact saveRecord_writes_under seqDir r ws hr w h1
      · exact ih w h1

/-- Helper: all directories made and files written by the sequence loop of
`_get_entities` live under the constructor-supplied root. -/
theorem processSeqs_under (root : List String)
    (fetchSeq : String → Except PyErr (List PyImageRecord)) (ss : List String) :
    (∀ d ∈ (processSeqs root fetchSeq ss).1.1, ∃ rest, d = root ++ rest)
  ∧ (∀ w ∈ (processSeqs root fetchSeq ss).1.2, ∃ rest, w.1 = root ++ rest) := by
  induction ss with
  | nil => simp [processSeqs]
  | cons s ss ih =>
    cases hf : fetchSeq s with
    | error e => simp [processSeqs, hf]
    | ok recs =>
      simp only [processSeqs, hf]
      cases hw : (saveRecords (root ++ [s]) recs).2 with
      | some e =>
        simp only [hw]
        constructor
        · intro d hd
          rcases List.mem_cons.1 hd with h1 | h1
          · exact ⟨[s], h1⟩
          · cases h1
        · intro w hww
          obtain ⟨rest, hrest⟩ := saveRecords_writes_under (root ++ [s]) recs w hww
          exact ⟨[s] ++ rest, by rw [hrest, List.append_assoc]⟩
      | none =>
        simp only [hw]
        constructor
        · intro d hd
          rcases List.mem_cons.1 hd with h1 | h1
          · exact ⟨[s], h1⟩
          · exact ih.1 d h1
        · intro w hww
          rcases List.mem_append.1 hww with h1 | h1
          · obtain ⟨rest, hrest⟩ := saveRecords_writes_under (root ++ [s]) recs w h1
            exact ⟨[s] ++ rest, by rw [hrest, List.append_assoc]⟩
          · exact ih.2 w h1

/-- Helper: all directories and writes of `_get_entities` live under root. -/
theorem getEntities_under (coverage : Tile → Except PyErr (List String))
    (fetchSeq : String → Except PyErr (List PyImageRecord))
    (root : List String) (chunks : Nat) (reg : List String) (tile : Tile) :
    (∀ d ∈ (getEntities coverage fetchSeq root chunks reg tile).1.2.mkdirs,
      ∃ rest, d = root ++ rest)
  ∧ (∀ w ∈ (getEntities coverage fetchSeq root chunks reg tile).1.2.writes,
      ∃ rest, w.1 = root ++ rest) := by
  cases hc : coverage tile with
  | error e => simp [getEntities, hc]
  | ok cands =>
    simp only [getEntities, hc]
    exact processSeqs_under root fetchSeq _

/-- Helper: all directories and writes of the tile loop live under root. -/
theorem downloadTiles_under (coverage : Tile → Except PyErr (List String))
    (fetchSeq : String → Except PyErr (List PyImageRecord))
    (root : List String) (chunks : Nat) (tiles : List Tile) :
    ∀ reg : List String,
    (∀ d ∈ (downloadTiles coverage fetchSeq root chunks reg tiles).1.2.mkdirs,
      ∃ rest, d = root ++ rest)
  ∧ (∀ w ∈ (downloadTiles coverage fetchSeq root chunks reg tiles).1.2.writes,
      ∃ rest, w.1 = root ++ rest) := by
  induction tiles with
  | nil => intro reg; simp [downloadTiles]
  | cons t ts ih =>
    intro reg
    cases hg : (getEntities coverage fetchSeq root chunks reg t).2 with
    | some e =>
      simp only [downloadTiles, hg]
      exact getEntities_under coverage fetchSeq root chunks reg t
    | none =>
      simp only [downloadTiles, hg, Effects.app]
      constructor
      · intro d hd
        rcases List.mem_append.1 hd with h1 | h1
        · exact (getEntities_under coverage fetchSeq root chunks reg t).1 d h1
        · exact (ih _).1 d h1
      · intro w hw
        rcases List.mem_append.1 hw with h1 | h1
        · exact (getEntities_under coverage fetchSeq root chunks reg t).2 w h1
        · exact (ih _).2 w h1

/-- C9: the `directory` keyword argument of `download_region` has no effect:
the run is identical for any two values of the argument, and every directory
made and file written lives under the constructor-supplied `self.directory`. -/
theorem C9_directory_argument_ignored
    (coverage : Tile → Except PyErr (List String))
    (fetchSeq : String → Except PyErr (List PyImageRecord))
    (root : List String) (chunks : Nat)
    (dirArg dirArg' : Option (List String)) (tiles : List Tile) :
    downloadRegion coverage fetchSeq root chunks dirArg tiles
      = downloadRegion coverage fetchSeq root chunks dirArg' tiles
  ∧ (∀ d ∈ (downloadRegion coverage fetchSeq root chunks dirArg tiles).1.2.mkdirs,
      ∃ rest, d = root ++ rest)
  ∧ (∀ w ∈ (downloadRegion coverage fetchSeq root chunks dirArg tiles).1.2.writes,
      ∃ rest, w.1 = root ++ rest) := by
  refine ⟨rfl, ?_, ?_⟩
  · intro d hd
    simp only [downloadRegion] at hd
    rcases List.mem_cons.1 hd with h1 | h1
    · exact ⟨[], by rw [h1, List.append_nil]⟩
    · exact (downloadTiles_under coverage fetchSeq root chunks tiles []).1 d h1
  · intro w hw
    simp only [downloadRegion] at hw
    exact (downloadTiles_under coverage fetchSeq root chunks tiles []).2 w hw

/-- Coverage fetcher used by the C9 witness: one sequence "s1" per tile. -/
def c9Coverage : Tile → Except PyErr (List String) := fun _ => .ok ["s1"]

/-- Sequence fetcher used by the C9 witness: one well-shaped record. -/
def c9FetchSeq : String → Except PyErr (List PyImageRecord) :=
  fun _ => .ok [.pairBytes [("id", "i1")] [1]]

/-- Witness for C9: passing a different `directory` argument changes nothing,
and the sequence directory created lives under the constructor root. -/
theorem C9_directory_argument_ignored_witness :
    downloadRegion c9Coverage c9FetchSeq ["root"] 5 (some ["other"]) [⟨0, 0, 1⟩]
      = downloadRegion c9Coverage c9FetchSeq ["root"] 5 none [⟨0, 0, 1⟩]
  ∧ ∃ rest, (["root", "s1"] : List String) = ["root"] ++ rest := by
  have h := C9_directory_argument_ignored c9Coverage c9FetchSeq ["root"] 5
    (some ["other"]) none [⟨0, 0, 1⟩]
  exact ⟨h.1, h.2.1 ["root", "s1"] (by decide)⟩

/-- Helper: joining a list of genuine strings succeeds. -/
theorem joinComma_strings (ss : List String) :
    joinComma (ss.map .pstr) = .ok (String.intercalate "," ss) := by
  have : ∀ ts : List String, collectStrs (ts.map PyVal.pstr) = some ts := by
    intro ts
    induction ts with
    | nil => rfl
    | cons a as ih => simp [collectStrs, ih]
  simp [joinComma, this ss]

/-- Helper: joining a list with a non-string element raises `TypeError`. -/
theorem joinComma_mixed (ps : List String) (n : Int) (xs : List PyVal) :
    joinComma (ps.map PyVal.pstr ++ .pint n :: xs) = .error PyErr.typeError := by
  have : collectStrs (ps.map PyVal.pstr ++ .pint n :: xs) = none := by
    induction ps with
    | nil => simp [collectStrs]
    | cons a as ih => simp [collectStrs, ih]
  simp [joinComma, this]

/-- C10 counterexample: a list whose first element is a string but whose
second is an integer passes `_collect_fields` validation, yet the
`",".join(fields)` that follows raises `TypeError` — the value is not
"joined into the URL without error" as the claim states. -/
theorem C10_counterexample :
    collectFields "https://u" (some (.plist [.pstr "id", .pint 3]))
      = .error PyErr.typeError := by
  rfl

/-- C10 amended: `_collect_fields` inspects only `fields[0]`, so the empty
list raises `IndexError` (not the documented `ValueError`); a list whose
head is a string but which contains a later non-string element passes the
validation but then fails with `TypeError` at the comma-join; a list of
genuine strings is joined into the URL. -/
theorem C10_collect_fields_validation (url s : String) (n : Int)
    (ps : List String) (xs : List PyVal) (ss : List String) :
    collectFields url (some (.plist [])) = .error PyErr.indexError
  ∧ collectFields url
      (some (.plist (.pstr s :: (ps.map .pstr ++ .pint n :: xs))))
      = .error PyErr.typeError
  ∧ collectFields url (some (.plist (.pstr s :: ss.map .pstr)))
      = .ok (url ++ "?fields=" ++ String.intercalate "," (s :: ss)) := by
  refine ⟨rfl, ?_, ?_⟩
  · have h := joinComma_mixed (s :: ps) n xs
    simp only [List.map_cons, List.cons_append] at h
    simp [collectFields, pyIsStr, h]
  · have h := joinComma_strings (s :: ss)
    simp only [List.map_cons] at h
    simp [collectFields, pyIsStr, h]
